import Mathlib

/-
Verification of the SecEdgar client (src/app.py): a shallow embedding of the
directory loader (cik_json_to_dict, name_to_cik, ticker_to_cik) and the filing
retriever (get_filings, annual_filing, quarterly_filing), with theorems checking
the documented behaviour. Network fetches are modelled by passing the fetch
result as an explicit Option parameter: `none` stands for a failed fetch
(transport error or non-2xx status, which fetch_json_data converts to None).
-/

namespace SecEdgarModel

/-- Record stored in both lookup dictionaries: the Python tuple (cik, name, ticker)
built in cik_json_to_dict. -/
structure CompanyRecord where
  cik : String
  name : String
  ticker : String
deriving DecidableEq, Repr

/-- One value of the fetched company_tickers.json object. Each of the three fields
the code reads (title, cik_str, ticker) may be absent, hence Option. The numeric
cik_str is modelled as a Nat (Python applies str() to it). -/
structure CompanyEntry where
  title : Option String
  cik_str : Option Nat
  ticker : Option String
deriving DecidableEq, Repr

/-- Python str.zfill(w) on an unsigned digit string: pad on the left with zeros up
to width w (the sign-handling branch of zfill never fires on str(cik_str) for a
natural number). -/
def zfill (s : String) (w : Nat) : String :=
  (List.replicate (w - s.length) '0').asString ++ s

/-- Lookup in a Python dict modelled as an association list in which the most
recent binding of a key comes first; .get returns None when the key is absent. -/
def dictGet (d : List (String × CompanyRecord)) (k : String) : Option CompanyRecord :=
  (d.find? (fun p => p.1 == k)).map (fun p => p.2)

/-- The loop body of SecEdgar.cik_json_to_dict for one JSON value: when all of
title, cik_str and ticker are present, insert (cik, name, ticker) into both
dictionaries (a fresh binding shadows any older one, as Python assignment
overwrites); otherwise leave both dictionaries unchanged. -/
def cikStep (acc : List (String × CompanyRecord) × List (String × CompanyRecord))
    (item : CompanyEntry) :
    List (String × CompanyRecord) × List (String × CompanyRecord) :=
  match item.title, item.cik_str, item.ticker with
  | some name, some cikn, some ticker =>
    let cik := zfill (toString cikn) 10
    ((name, ⟨cik, name, ticker⟩) :: acc.1, (ticker, ⟨cik, name, ticker⟩) :: acc.2)
  | _, _, _ => acc

/-- SecEdgar.cik_json_to_dict: iterate over the values of the fetched JSON object
and populate (namedict, tickerdict). -/
def cik_json_to_dict (items : List CompanyEntry) :
    List (String × CompanyRecord) × List (String × CompanyRecord) :=
  items.foldl cikStep ([], [])

/-- The SecEdgar instance state after __init__: configuration plus the two
dictionaries. -/
structure SecEdgar where
  fileurl : String
  headers : List (String × String)
  namedict : List (String × CompanyRecord)
  tickerdict : List (String × CompanyRecord)
deriving DecidableEq, Repr

/-- SecEdgar.__init__: the fetch result arrives as a parameter (`none` models a
failed fetch, for which fetch_json_data returns None after printing the error).
Both dictionaries start empty and are populated only when the fetch succeeded. -/
def secEdgarInit (fileurl : String) (headers : List (String × String))
    (fetched : Option (List CompanyEntry)) : SecEdgar :=
  match fetched with
  | none => ⟨fileurl, headers, [], []⟩
  | some items =>
    let d := cik_json_to_dict items
    ⟨fileurl, headers, d.1, d.2⟩

/-- SecEdgar.name_to_cik: dictionary .get on namedict. -/
def name_to_cik (s : SecEdgar) (company_name : String) : Option CompanyRecord :=
  dictGet s.namedict company_name

/-- SecEdgar.ticker_to_cik: dictionary .get on tickerdict. -/
def ticker_to_cik (s : SecEdgar) (ticker : String) : Option CompanyRecord :=
  dictGet s.tickerdict ticker

/-- The filings.recent object of a submissions payload: the five parallel arrays
the code reads (each .get defaults to an empty list when the key is missing, so
an absent array is the empty list here). -/
structure Submissions where
  form : List String
  accessionNumber : List String
  primaryDocument : List String
  primaryDocDescription : List String
  filingDate : List String
deriving DecidableEq, Repr

/-- The dictionary appended for each matching position of the get_filings loop. -/
structure FilingRecord where
  form_type : String
  accession_number : String
  filing_date : String
  document_url : String
  description : String
deriving DecidableEq, Repr

/-- Python zip over five lists: stops at the shortest list. -/
def zip5 : List String → List String → List String → List String → List String →
    List (String × String × String × String × String)
  | a :: as, b :: bs, c :: cs, d :: ds, e :: es =>
    (a, b, c, d, e) :: zip5 as bs cs ds es
  | _, _, _, _, _ => []

/-- accession_number.replace("-", ""): drop every hyphen. -/
def removeHyphens (s : String) : String :=
  (s.toList.filter (fun c => c != '-')).asString

/-- The f-string building document_url in get_filings. -/
def docUrl (cik accession_number primary_doc : String) : String :=
  "https://www.sec.gov/Archives/edgar/data/" ++ cik ++ "/" ++
    removeHyphens accession_number ++ "/" ++ primary_doc

/-- The record appended by the get_filings loop body for one zipped row, with the
description defaulted when the Python string is falsy (empty). -/
def mkFilingRecord (cik form_type accession_number primary_doc doc_desc filing_date :
    String) : FilingRecord :=
  { form_type := form_type
    accession_number := accession_number
    filing_date := filing_date
    document_url := docUrl cik accession_number primary_doc
    description := if doc_desc = "" then "No description available" else doc_desc }

/-- The loop of get_filings over the zipped rows: append a record for each row
whose form is in form_types. -/
def filingsLoop (cik : String) (form_types : List String) :
    List (String × String × String × String × String) → List FilingRecord
  | [] => []
  | (ft, an, pd, dd, fd) :: rest =>
    (if form_types.contains ft then [mkFilingRecord cik ft an pd dd fd] else []) ++
      filingsLoop cik form_types rest

/-- SecEdgar.get_filings: `none` for the submissions parameter models a failed
fetch of the submissions endpoint (fetch_json_data returned None), for which the
code returns the empty list. On success the five arrays are zipped and filtered
by form type. form_types is a Python list, membership tested with `in`. -/
def get_filings (subs : Option Submissions) (cik : String) (form_types : List String) :
    List FilingRecord :=
  match subs with
  | none => []
  | some s =>
    filingsLoop cik form_types
      (zip5 s.form s.accessionNumber s.primaryDocument s.primaryDocDescription
        s.filingDate)

/-- Python str.startswith: a Python string is a sequence of code points, so the
test is a character-list comparison. -/
def pyStartsWith (s p : String) : Bool :=
  p.data.isPrefixOf s.data

/-- Python slice s[:n]: the first n code points. -/
def pyTake (s : String) (n : Nat) : String :=
  String.mk (s.data.take n)

/-- Python slice s[n:]: drop the first n code points. -/
def pyDrop (s : String) (n : Nat) : String :=
  String.mk (s.data.drop n)

/-- SecEdgar.annual_filing: first 10-K whose filing_date starts with str(year),
None when the loop finds none. -/
def annual_filing (subs : Option Submissions) (cik : String) (year : Nat) :
    Option FilingRecord :=
  (get_filings subs cik ["10-K"]).find?
    (fun f => pyStartsWith f.filing_date (toString year))

/-- Python int() on the digit substring date[5:7]: fold the decimal digits. -/
def pyInt (s : String) : Nat :=
  s.data.foldl (fun n c => n * 10 + (c.toNat - '0'.toNat)) 0

/-- The month component int(filing_date[5:7]) read by quarterly_filing. -/
def filingMonth (filing_date : String) : Nat :=
  pyInt (pyTake (pyDrop filing_date 5) 2)

/-- The predicate of the quarterly_filing loop: filing_date[:4] == str(year) and
(month - 1) // 3 + 1 == quarter, with Python floor division modelled by Int.fdiv. -/
def quarterMatches (year quarter : Nat) (filing_date : String) : Bool :=
  (pyTake filing_date 4 == toString year) &&
    (((filingMonth filing_date : Int) - 1).fdiv 3 + 1 == (quarter : Int))

/-- SecEdgar.quarterly_filing: first 10-Q of the given year whose computed quarter
equals the requested one, None when the loop finds none. -/
def quarterly_filing (subs : Option Submissions) (cik : String) (year quarter : Nat) :
    Option FilingRecord :=
  (get_filings subs cik ["10-Q"]).find? (fun f => quarterMatches year quarter f.filing_date)

/-- SecEdgar.list_all_companies: builds one output line per namedict entry; it
only reads the dictionaries. -/
def list_all_companies (s : SecEdgar) : List String :=
  s.namedict.map (fun p =>
    "Company Name: " ++ p.1 ++ ", Ticker: " ++ p.2.ticker ++ ", CIK: " ++ p.2.cik)

/-- Length of the shortest of the five parallel arrays: where Python zip stops. -/
def minLen5 (s : Submissions) : Nat :=
  min s.form.length (min s.accessionNumber.length (min s.primaryDocument.length
    (min s.primaryDocDescription.length s.filingDate.length)))

/-- The specification's characterisation of get_filings on a successful fetch,
written from the spec text rather than from the loop: one record for exactly
those positions i below the shortest array length whose form is in form_types,
in positional order, with document_url rebuilt from cik, the accession number
stripped of hyphens, and the primary document name, and with the description
defaulted when the stored description string is empty. -/
def filingsSpec (cik : String) (form_types : List String) (s : Submissions) :
    List FilingRecord :=
  ((List.range (minLen5 s)).filter
      (fun i => form_types.contains (s.form.get! i))).map
    (fun i =>
      { form_type := s.form.get! i
        accession_number := s.accessionNumber.get! i
        filing_date := s.filingDate.get! i
        document_url := "https://www.sec.gov/Archives/edgar/data/" ++ cik ++ "/" ++
          removeHyphens (s.accessionNumber.get! i) ++ "/" ++ s.primaryDocument.get! i
        description := if s.primaryDocDescription.get! i = "" then
          "No description available" else s.primaryDocDescription.get! i })

/-- True when an entry carries all three fields the directory loader requires. -/
def isComplete (e : CompanyEntry) : Bool :=
  e.title.isSome && e.cik_str.isSome && e.ticker.isSome

/-- The submissions payload used by the spec's worked example: three filings,
a 10-K, a 10-Q and an older 10-K, with the filing dates given in the spec. -/
def examplePayload : Submissions :=
  { form := ["10-K", "10-Q", "10-K"]
    accessionNumber := ["0001234567-22-000123", "0001234567-22-000456",
      "0001234567-21-000789"]
    primaryDocument := ["a10k.htm", "b10q.htm", "c10k.htm"]
    primaryDocDescription := ["Annual report", "", "Annual report 2021"]
    filingDate := ["2022-03-01", "2022-05-01", "2021-03-01"] }

/-- A payload of two 10-Q filings used for the quarterly example: the first is
dated 2022-03-01 (quarter 1), the second 2022-05-01 (quarter 2). -/
def quarterlyPayload : Submissions :=
  { form := ["10-Q", "10-Q"]
    accessionNumber := ["0001234567-22-000001", "0001234567-22-000002"]
    primaryDocument := ["q1.htm", "q2.htm"]
    primaryDocDescription := ["Quarterly report", "Quarterly report"]
    filingDate := ["2022-03-01", "2022-05-01"] }

/-- Two complete directory entries sharing the title Acme but carrying different
CIKs and tickers; Python dict assignment makes the second overwrite the first in
namedict. -/
def dupTitleEntries : List CompanyEntry :=
  [⟨some "Acme", some 1, some "ACME"⟩, ⟨some "Acme", some 2, some "ACM2"⟩]

/-- name_to_cik as a state transformer: the method body only reads
self.namedict, so the state it returns is the state it received. -/
def name_to_cik_st (s : SecEdgar) (company_name : String) :
    Option CompanyRecord × SecEdgar :=
  (name_to_cik s company_name, s)

/-- ticker_to_cik as a state transformer: the method body only reads
self.tickerdict. -/
def ticker_to_cik_st (s : SecEdgar) (ticker : String) :
    Option CompanyRecord × SecEdgar :=
  (ticker_to_cik s ticker, s)

/-- get_filings as a state transformer: the body reads no instance dictionary
and assigns no instance attribute (the submissions fetch is a parameter). -/
def get_filings_st (s : SecEdgar) (subs : Option Submissions) (cik : String)
    (form_types : List String) : List FilingRecord × SecEdgar :=
  (get_filings subs cik form_types, s)

/-- annual_filing as a state transformer. -/
def annual_filing_st (s : SecEdgar) (subs : Option Submissions) (cik : String)
    (year : Nat) : Option FilingRecord × SecEdgar :=
  (annual_filing subs cik year, s)

/-- quarterly_filing as a state transformer. -/
def quarterly_filing_st (s : SecEdgar) (subs : Option Submissions) (cik : String)
    (year quarter : Nat) : Option FilingRecord × SecEdgar :=
  (quarterly_filing subs cik year quarter, s)

/-- list_all_companies as a state transformer: it only reads namedict. -/
def list_all_companies_st (s : SecEdgar) : List String × SecEdgar :=
  (list_all_companies s, s)

/-- find? returns exactly the first element satisfying the predicate: some a iff
a occurs at a position where the predicate holds and fails at every earlier
position. -/
theorem find?_first_iff {α : Type} (p : α → Bool) (l : List α) (a : α) :
    l.find? p = some a ↔
      ∃ i : Nat, l[i]? = some a ∧ p a = true ∧
        ∀ j : Nat, j < i → ∀ b, l[j]? = some b → p b = false := by
  induction l with
  | nil => simp
  | cons x xs ih =>
    rw [List.find?_cons]
    by_cases h : p x
    · simp only [h, if_pos rfl]
      constructor
      · rintro hax
        injection hax with hax
        subst hax
        exact ⟨0, by simp, h, by omega⟩
      · rintro ⟨i, hi, hpa, hfirst⟩
        cases i with
        | zero =>
          simp only [List.getElem?_cons_zero, Option.some.injEq] at hi
          rw [hi]
        | succ n =>
          have h0 := hfirst 0 (Nat.succ_pos n) x (by simp)
          rw [h] at h0
          exact absurd h0 (by simp)
    · have hb : p x = false := by
        cases hpx : p x
        · rfl
        · exact absurd hpx h
      simp only [hb]
      rw [ih]
      constructor
      · rintro ⟨i, hi, hpa, hf⟩
        refine ⟨i + 1, by simpa using hi, hpa, ?_⟩
        intro j hj b hbj
        cases j with
        | zero =>
          simp only [List.getElem?_cons_zero, Option.some.injEq] at hbj
          exact hbj ▸ hb
        | succ m =>
          exact hf m (by omega) b (by simpa using hbj)
      · rintro ⟨i, hi, hpa, hf⟩
        cases i with
        | zero =>
          simp only [List.getElem?_cons_zero, Option.some.injEq] at hi
          subst hi
          rw [hb] at hpa
          exact absurd hpa (by simp)
        | succ n =>
          refine ⟨n, by simpa using hi, hpa, ?_⟩
          intro j hj b hbj
          exact hf (j + 1) (by omega) b (by simpa using hbj)

/-- The Bool predicate of the quarterly_filing loop, as a proposition. -/
theorem quarterMatches_iff (year quarter : Nat) (fd : String) :
    quarterMatches year quarter fd = true ↔
      pyTake fd 4 = toString year ∧
        ((filingMonth fd : Int) - 1).fdiv 3 + 1 = (quarter : Int) := by
  simp [quarterMatches, Bool.and_eq_true, beq_iff_eq]

/-- Failure of the quarterly predicate, as a proposition. -/
theorem quarterMatches_false_iff (year quarter : Nat) (fd : String) :
    quarterMatches year quarter fd = false ↔
      ¬(pyTake fd 4 = toString year ∧
        ((filingMonth fd : Int) - 1).fdiv 3 + 1 = (quarter : Int)) := by
  rw [← quarterMatches_iff]
  cases h : quarterMatches year quarter fd <;> simp

/-- The zip-then-filter loop of get_filings equals the indexed description: keep
the positions below the shortest length whose form matches, in order. -/
theorem filingsLoop_spec (cik : String) (fts : List String) :
    ∀ (a b c d e : List String),
      filingsLoop cik fts (zip5 a b c d e) =
        ((List.range
              (min a.length (min b.length (min c.length (min d.length e.length))))).filter
            (fun i => fts.contains (a.get! i))).map
          (fun i => mkFilingRecord cik (a.get! i) (b.get! i) (c.get! i) (d.get! i)
            (e.get! i))
  | [], _, _, _, _ => by simp [zip5, filingsLoop]
  | _ :: _, [], _, _, _ => by simp [zip5, filingsLoop]
  | _ :: _, _ :: _, [], _, _ => by simp [zip5, filingsLoop]
  | _ :: _, _ :: _, _ :: _, [], _ => by simp [zip5, filingsLoop]
  | _ :: _, _ :: _, _ :: _, _ :: _, [] => by simp [zip5, filingsLoop]
  | a :: as, b :: bs, c :: cs, d :: ds, e :: es => by
    have ih := filingsLoop_spec cik fts as bs cs ds es
    simp only [zip5, filingsLoop, List.length_cons] at ih ⊢
    rw [ih]
    have hmin : min (as.length + 1) (min (bs.length + 1) (min (cs.length + 1)
        (min (ds.length + 1) (es.length + 1)))) =
        min as.length (min bs.length (min cs.length (min ds.length es.length))) + 1 := by
      omega
    rw [hmin, List.range_succ_eq_map]
    by_cases h : a ∈ fts
    · simp [h, List.filter_cons, List.filter_map, Function.comp_def, List.map_map,
        Nat.succ_eq_add_one, List.getElem!_cons_succ, List.getElem!_cons_zero]
    · simp [h, List.filter_cons, List.filter_map, Function.comp_def, List.map_map,
        Nat.succ_eq_add_one, List.getElem!_cons_succ, List.getElem!_cons_zero]

/-- On a successful fetch, get_filings computes exactly filingsSpec. -/
theorem get_filings_eq_filingsSpec (cik : String) (fts : List String)
    (s : Submissions) : get_filings (some s) cik fts = filingsSpec cik fts s := by
  rcases s with ⟨a, b, c, d, e⟩
  simp only [get_filings]
  rw [filingsLoop_spec]
  simp [filingsSpec, minLen5, mkFilingRecord, docUrl]

/-- C1: on every submissions payload, get_filings emits one FilingRecord per
position, up to the shortest of the five parallel arrays, whose form is in
form_types, in positional order, with document_url rebuilt from the cik, the
accession number with hyphens removed, and the primary document name; on the
worked payload with form = 10-K, 10-Q, 10-K filtered by 10-K, exactly positions
0 and 2 come back, and accession number 0001234567-22-000123 produces the path
segment 000123456722000123. -/
theorem get_filings_positions_and_urls :
    (∀ (cik : String) (form_types : List String) (s : Submissions),
        get_filings (some s) cik form_types = filingsSpec cik form_types s) ∧
      get_filings (some examplePayload) "1234567" ["10-K"] =
        [{ form_type := "10-K", accession_number := "0001234567-22-000123",
           filing_date := "2022-03-01",
           document_url :=
             "https://www.sec.gov/Archives/edgar/data/1234567/000123456722000123/a10k.htm",
           description := "Annual report" },
         { form_type := "10-K", accession_number := "0001234567-21-000789",
           filing_date := "2021-03-01",
           document_url :=
             "https://www.sec.gov/Archives/edgar/data/1234567/000123456721000789/c10k.htm",
           description := "Annual report 2021" }] ∧
      removeHyphens "0001234567-22-000123" = "000123456722000123" :=
  ⟨fun cik fts s => get_filings_eq_filingsSpec cik fts s, by decide, by decide⟩

/-- C5: when the submissions fetch fails, get_filings returns the empty list,
and annual_filing and quarterly_filing therefore return none. -/
theorem get_filings_soft_empty :
    ∀ (cik : String) (form_types : List String) (year quarter : Nat),
      get_filings none cik form_types = [] ∧
        annual_filing none cik year = none ∧
        quarterly_filing none cik year quarter = none := by
  intro cik fts year quarter
  simp [get_filings, annual_filing, quarterly_filing]

/-- C8: when the directory fetch fails, construction still completes (the init
function is total) and leaves both indices empty, so every lookup returns none. -/
theorem init_failure_leaves_directory_empty :
    ∀ (fileurl : String) (headers : List (String × String)) (nm tk : String),
      (secEdgarInit fileurl headers none).namedict = [] ∧
        (secEdgarInit fileurl headers none).tickerdict = [] ∧
        name_to_cik (secEdgarInit fileurl headers none) nm = none ∧
        ticker_to_cik (secEdgarInit fileurl headers none) tk = none := by
  intro fileurl headers nm tk
  simp [secEdgarInit, name_to_cik, ticker_to_cik, dictGet]

/-- C9: every operation available after construction returns the instance state
unchanged: none of the method bodies assigns to namedict or tickerdict. -/
theorem operations_preserve_directory :
    ∀ (s : SecEdgar) (nm tk cik : String) (subs : Option Submissions)
      (form_types : List String) (year quarter : Nat),
      (name_to_cik_st s nm).2 = s ∧
        (ticker_to_cik_st s tk).2 = s ∧
        (get_filings_st s subs cik form_types).2 = s ∧
        (annual_filing_st s subs cik year).2 = s ∧
        (quarterly_filing_st s subs cik year quarter).2 = s ∧
        (list_all_companies_st s).2 = s := by
  intro s nm tk cik subs fts year quarter
  exact ⟨rfl, rfl, rfl, rfl, rfl, rfl⟩

/-- C2: annual_filing returns the first 10-K record whose filing_date starts
with str(year), and none when no record matches; on the worked payload,
annual_filing for 2022 returns the record at position 0, not the 10-K at
position 2. -/
theorem annual_filing_first_match :
    (∀ (subs : Option Submissions) (cik : String) (year : Nat) (r : FilingRecord),
        (annual_filing subs cik year = some r ↔
          ∃ i : Nat, (get_filings subs cik ["10-K"])[i]? = some r ∧
            pyStartsWith r.filing_date (toString year) = true ∧
            ∀ j : Nat, j < i → ∀ q, (get_filings subs cik ["10-K"])[j]? = some q →
              pyStartsWith q.filing_date (toString year) = false) ∧
        (annual_filing subs cik year = none ↔
          ∀ q ∈ get_filings subs cik ["10-K"],
            pyStartsWith q.filing_date (toString year) = false)) ∧
      annual_filing (some examplePayload) "1234567" 2022 =
        some { form_type := "10-K", accession_number := "0001234567-22-000123",
               filing_date := "2022-03-01",
               document_url :=
                 "https://www.sec.gov/Archives/edgar/data/1234567/000123456722000123/a10k.htm",
               description := "Annual report" } := by
  refine ⟨?_, by decide⟩
  intro subs cik year r
  constructor
  · exact find?_first_iff (fun f => pyStartsWith f.filing_date (toString year))
      (get_filings subs cik ["10-K"]) r
  · unfold annual_filing
    rw [List.find?_eq_none]
    simp only [Bool.not_eq_true]

/-- C3: quarterly_filing returns the first 10-Q whose filing_date has its first
four characters equal to str(year) and whose month (parsed from characters 5-6)
yields (month - 1) floor-div 3 + 1 equal to the requested quarter, and none when
no record matches; 2022-05-01 matches quarter 2 of 2022 while 2022-03-01 does
not, so on a payload listing both 10-Qs the May filing is returned. -/
theorem quarterly_filing_first_match :
    (∀ (subs : Option Submissions) (cik : String) (year quarter : Nat)
        (r : FilingRecord),
        (quarterly_filing subs cik year quarter = some r ↔
          ∃ i : Nat, (get_filings subs cik ["10-Q"])[i]? = some r ∧
            (pyTake r.filing_date 4 = toString year ∧
              ((filingMonth r.filing_date : Int) - 1).fdiv 3 + 1 = (quarter : Int)) ∧
            ∀ j : Nat, j < i → ∀ q, (get_filings subs cik ["10-Q"])[j]? = some q →
              ¬(pyTake q.filing_date 4 = toString year ∧
                ((filingMonth q.filing_date : Int) - 1).fdiv 3 + 1 = (quarter : Int))) ∧
        (quarterly_filing subs cik year quarter = none ↔
          ∀ q ∈ get_filings subs cik ["10-Q"],
            ¬(pyTake q.filing_date 4 = toString year ∧
              ((filingMonth q.filing_date : Int) - 1).fdiv 3 + 1 = (quarter : Int)))) ∧
      quarterMatches 2022 2 "2022-05-01" = true ∧
      quarterMatches 2022 2 "2022-03-01" = false ∧
      quarterly_filing (some quarterlyPayload) "1234567" 2022 2 =
        some { form_type := "10-Q", accession_number := "0001234567-22-000002",
               filing_date := "2022-05-01",
               document_url :=
                 "https://www.sec.gov/Archives/edgar/data/1234567/000123456722000002/q2.htm",
               description := "Quarterly report" } := by
  refine ⟨?_, by decide, by decide, by decide⟩
  intro subs cik year quarter r
  constructor
  · rw [show quarterly_filing subs cik year quarter =
        (get_filings subs cik ["10-Q"]).find?
          (fun f => quarterMatches year quarter f.filing_date) from rfl,
      find?_first_iff]
    constructor
    · rintro ⟨i, hi, hpa, hf⟩
      exact ⟨i, hi, (quarterMatches_iff year quarter r.filing_date).mp hpa,
        fun j hj q hq =>
          (quarterMatches_false_iff year quarter q.filing_date).mp (hf j hj q hq)⟩
    · rintro ⟨i, hi, hpa, hf⟩
      exact ⟨i, hi, (quarterMatches_iff year quarter r.filing_date).mpr hpa,
        fun j hj q hq =>
          (quarterMatches_false_iff year quarter q.filing_date).mpr (hf j hj q hq)⟩
  · rw [show quarterly_filing subs cik year quarter =
        (get_filings subs cik ["10-Q"]).find?
          (fun f => quarterMatches year quarter f.filing_date) from rfl,
      List.find?_eq_none]
    constructor
    · intro hall q hq
      have := hall q hq
      rw [Bool.not_eq_true] at this
      exact (quarterMatches_false_iff year quarter q.filing_date).mp this
    · intro hall q hq
      rw [Bool.not_eq_true]
      exact (quarterMatches_false_iff year quarter q.filing_date).mpr (hall q hq)

/-- Folding one more entry onto the directory applies one loop step. -/
theorem cik_json_to_dict_append (items : List CompanyEntry) (e : CompanyEntry) :
    cik_json_to_dict (items ++ [e]) = cikStep (cik_json_to_dict items) e := by
  simp [cik_json_to_dict, List.foldl_append]

/-- A loop step on a complete entry conses a binding onto each dictionary. -/
theorem cikStep_complete (acc : List (String × CompanyRecord) ×
    List (String × CompanyRecord)) (nm : String) (ck : Nat) (tk : String) :
    cikStep acc ⟨some nm, some ck, some tk⟩ =
      ((nm, ⟨zfill (toString ck) 10, nm, tk⟩) :: acc.1,
        (tk, ⟨zfill (toString ck) 10, nm, tk⟩) :: acc.2) := rfl

/-- A loop step on an entry missing a required field changes nothing. -/
theorem cikStep_skip (acc : List (String × CompanyRecord) ×
    List (String × CompanyRecord)) (e : CompanyEntry)
    (h : e.title = none ∨ e.cik_str = none ∨ e.ticker = none) :
    cikStep acc e = acc := by
  rcases e with ⟨t, c, k⟩
  cases t <;> cases c <;> cases k <;> first
    | rfl
    | (exact absurd h (by simp))

/-- An entry is incomplete exactly when one of its three fields is absent. -/
theorem isComplete_false_iff (e : CompanyEntry) :
    isComplete e = false ↔
      e.title = none ∨ e.cik_str = none ∨ e.ticker = none := by
  rcases e with ⟨t, c, k⟩
  cases t <;> cases c <;> cases k <;> simp [isComplete]

/-- A complete entry has all three fields. -/
theorem isComplete_true_iff (e : CompanyEntry) :
    isComplete e = true ↔
      ∃ (nm : String) (ck : Nat) (tk : String),
        e = ⟨some nm, some ck, some tk⟩ := by
  rcases e with ⟨t, c, k⟩
  cases t <;> cases c <;> cases k <;> simp [isComplete]

/-- Dictionary lookup on a freshly consed binding. -/
theorem dictGet_cons (k' : String) (v : CompanyRecord)
    (d : List (String × CompanyRecord)) (k : String) :
    dictGet ((k', v) :: d) k = if k' = k then some v else dictGet d k := by
  by_cases h : k' = k
  · subst h
    simp [dictGet, List.find?_cons]
  · simp [dictGet, List.find?_cons, h]

/-- namedict maps a title to the record of the last complete entry carrying it:
if entry i is complete and no later complete entry shares its title, the lookup
returns entry i's record. -/
theorem namedict_last_binding :
    ∀ (items : List CompanyEntry) (i : Nat) (e : CompanyEntry) (nm : String)
      (ck : Nat) (tk : String),
      items[i]? = some e → e.title = some nm → e.cik_str = some ck →
      e.ticker = some tk →
      (∀ (j : Nat) (e2 : CompanyEntry), i < j → items[j]? = some e2 →
        isComplete e2 = true → e2.title ≠ some nm) →
      dictGet (cik_json_to_dict items).1 nm =
        some ⟨zfill (toString ck) 10, nm, tk⟩ := by
  intro items
  induction items using List.reverseRecOn with
  | nil =>
    intro i e nm ck tk hi
    simp at hi
  | append_singleton xs x ih =>
    intro i e nm ck tk hi ht hc hk hshadow
    rw [cik_json_to_dict_append]
    obtain ⟨hlt, -⟩ := List.getElem?_eq_some.mp hi
    rw [List.length_append, List.length_cons, List.length_nil] at hlt
    rcases Nat.lt_succ_iff_lt_or_eq.mp hlt with hlt' | heq
    · have hixs : xs[i]? = some e := by
        rw [List.getElem?_append, if_pos hlt'] at hi
        exact hi
      have hshadow' : ∀ (j : Nat) (e2 : CompanyEntry), i < j → xs[j]? = some e2 →
          isComplete e2 = true → e2.title ≠ some nm := by
        intro j e2 hj hl hcomp
        obtain ⟨hjlt, -⟩ := List.getElem?_eq_some.mp hl
        refine hshadow j e2 hj ?_ hcomp
        rw [List.getElem?_append, if_pos hjlt]
        exact hl
      have hmain := ih i e nm ck tk hixs ht hc hk hshadow'
      cases hcx : isComplete x with
      | false =>
        rw [cikStep_skip _ _ ((isComplete_false_iff x).mp hcx)]
        exact hmain
      | true =>
        obtain ⟨xn, xc, xt, hx⟩ := (isComplete_true_iff x).mp hcx
        have hxat : (xs ++ [x])[xs.length]? = some x := by
          rw [List.getElem?_append_right (Nat.le_refl _), Nat.sub_self]
          rfl
        have hne : x.title ≠ some nm := hshadow xs.length x hlt' hxat hcx
        rw [hx] at hne ⊢
        rw [cikStep_complete, dictGet_cons, if_neg]
        · exact hmain
        · intro hcontra
          exact hne (by simp [hcontra])
    · have hxat : (xs ++ [x])[i]? = some x := by
        rw [heq, List.getElem?_append_right (Nat.le_refl _), Nat.sub_self]
        rfl
      have hex : e = x := by
        rw [hi] at hxat
        injection hxat
      subst hex
      have hx : e = ⟨some nm, some ck, some tk⟩ := by
        rcases e with ⟨t, c, k⟩
        simp only [CompanyEntry.mk.injEq]
        exact ⟨ht, hc, hk⟩
      rw [hx, cikStep_complete, dictGet_cons, if_pos rfl]

/-- tickerdict maps a ticker to the record of the last complete entry carrying
it. -/
theorem tickerdict_last_binding :
    ∀ (items : List CompanyEntry) (i : Nat) (e : CompanyEntry) (nm : String)
      (ck : Nat) (tk : String),
      items[i]? = some e → e.title = some nm → e.cik_str = some ck →
      e.ticker = some tk →
      (∀ (j : Nat) (e2 : CompanyEntry), i < j → items[j]? = some e2 →
        isComplete e2 = true → e2.ticker ≠ some tk) →
      dictGet (cik_json_to_dict items).2 tk =
        some ⟨zfill (toString ck) 10, nm, tk⟩ := by
  intro items
  induction items using List.reverseRecOn with
  | nil =>
    intro i e nm ck tk hi
    simp at hi
  | append_singleton xs x ih =>
    intro i e nm ck tk hi ht hc hk hshadow
    rw [cik_json_to_dict_append]
    obtain ⟨hlt, -⟩ := List.getElem?_eq_some.mp hi
    rw [List.length_append, List.length_cons, List.length_nil] at hlt
    rcases Nat.lt_succ_iff_lt_or_eq.mp hlt with hlt' | heq
    · have hixs : xs[i]? = some e := by
        rw [List.getElem?_append, if_pos hlt'] at hi
        exact hi
      have hshadow' : ∀ (j : Nat) (e2 : CompanyEntry), i < j → xs[j]? = some e2 →
          isComplete e2 = true → e2.ticker ≠ some tk := by
        intro j e2 hj hl hcomp
        obtain ⟨hjlt, -⟩ := List.getElem?_eq_some.mp hl
        refine hshadow j e2 hj ?_ hcomp
        rw [List.getElem?_append, if_pos hjlt]
        exact hl
      have hmain := ih i e nm ck tk hixs ht hc hk hshadow'
      cases hcx : isComplete x with
      | false =>
        rw [cikStep_skip _ _ ((isComplete_false_iff x).mp hcx)]
        exact hmain
      | true =>
        obtain ⟨xn, xc, xt, hx⟩ := (isComplete_true_iff x).mp hcx
        have hxat : (xs ++ [x])[xs.length]? = some x := by
          rw [List.getElem?_append_right (Nat.le_refl _), Nat.sub_self]
          rfl
        have hne : x.ticker ≠ some tk := hshadow xs.length x hlt' hxat hcx
        rw [hx] at hne ⊢
        rw [cikStep_complete, dictGet_cons, if_neg]
        · exact hmain
        · intro hcontra
          exact hne (by simp [hcontra])
    · have hxat : (xs ++ [x])[i]? = some x := by
        rw [heq, List.getElem?_append_right (Nat.le_refl _), Nat.sub_self]
        rfl
      have hex : e = x := by
        rw [hi] at hxat
        injection hxat
      subst hex
      have hx : e = ⟨some nm, some ck, some tk⟩ := by
        rcases e with ⟨t, c, k⟩
        simp only [CompanyEntry.mk.injEq]
        exact ⟨ht, hc, hk⟩
      rw [hx, cikStep_complete, dictGet_cons, if_pos rfl]

/-- C4 counterexample: two complete entries both titled Acme, with cik_str 1 and
then 2. The claim says the name lookup for the first entry returns a record
whose CIK is its own zero-padded cik_str, 0000000001; instead Python dict
assignment lets the second entry overwrite the binding, and the lookup returns
CIK 0000000002. -/
theorem directory_duplicate_title_counterexample :
    dupTitleEntries[0]? = some ⟨some "Acme", some 1, some "ACME"⟩ ∧
      zfill (toString (1 : Nat)) 10 = "0000000001" ∧
      (name_to_cik (secEdgarInit "url" [] (some dupTitleEntries)) "Acme").map
          CompanyRecord.cik = some "0000000002" ∧
      (name_to_cik (secEdgarInit "url" [] (some dupTitleEntries)) "Acme").map
          CompanyRecord.cik ≠ some "0000000001" := by
  refine ⟨by decide, by decide, by decide, by decide⟩

/-- C4 (amended): for every entry with all three fields present, provided no
later complete entry shares its title (for the name index) or its ticker (for
the ticker index), the corresponding lookup returns that entry's record with
its CIK zero-padded to 10 digits; in general each index holds the record of the
last complete entry bearing the key. -/
theorem directory_indices_complete_entries :
    ∀ (fileurl : String) (headers : List (String × String))
      (items : List CompanyEntry) (i : Nat) (e : CompanyEntry) (nm : String)
      (ck : Nat) (tk : String),
      items[i]? = some e → e.title = some nm → e.cik_str = some ck →
      e.ticker = some tk →
      ((∀ (j : Nat) (e2 : CompanyEntry), i < j → items[j]? = some e2 →
          isComplete e2 = true → e2.title ≠ some nm) →
        name_to_cik (secEdgarInit fileurl headers (some items)) nm =
          some ⟨zfill (toString ck) 10, nm, tk⟩) ∧
      ((∀ (j : Nat) (e2 : CompanyEntry), i < j → items[j]? = some e2 →
          isComplete e2 = true → e2.ticker ≠ some tk) →
        ticker_to_cik (secEdgarInit fileurl headers (some items)) tk =
          some ⟨zfill (toString ck) 10, nm, tk⟩) := by
  intro fileurl headers items i e nm ck tk hi ht hc hk
  constructor
  · intro hshadow
    exact namedict_last_binding items i e nm ck tk hi ht hc hk hshadow
  · intro hshadow
    exact tickerdict_last_binding items i e nm ck tk hi ht hc hk hshadow

/-- Witness for the amended C4: a one-entry directory, looked up by name and by
ticker, returns the record with the CIK padded to 0000000777. -/
theorem directory_indices_complete_entries_witness :
    name_to_cik (secEdgarInit "url" []
        (some [⟨some "Acme", some 777, some "ACME"⟩])) "Acme" =
      some ⟨zfill (toString (777 : Nat)) 10, "Acme", "ACME"⟩ ∧
    ticker_to_cik (secEdgarInit "url" []
        (some [⟨some "Acme", some 777, some "ACME"⟩])) "ACME" =
      some ⟨zfill (toString (777 : Nat)) 10, "Acme", "ACME"⟩ ∧
    zfill (toString (777 : Nat)) 10 = "0000000777" := by
  have h := directory_indices_complete_entries "url" []
    [⟨some "Acme", some 777, some "ACME"⟩] 0 ⟨some "Acme", some 777, some "ACME"⟩
    "Acme" 777 "ACME" rfl rfl rfl rfl
  have hsh1 : ∀ (j : Nat) (e2 : CompanyEntry), 0 < j →
      ([(⟨some "Acme", some 777, some "ACME"⟩ : CompanyEntry)])[j]? = some e2 →
      isComplete e2 = true → e2.title ≠ some "Acme" := by
    intro j e2 hj hl
    cases j with
    | zero => omega
    | succ n => simp at hl
  have hsh2 : ∀ (j : Nat) (e2 : CompanyEntry), 0 < j →
      ([(⟨some "Acme", some 777, some "ACME"⟩ : CompanyEntry)])[j]? = some e2 →
      isComplete e2 = true → e2.ticker ≠ some "ACME" := by
    intro j e2 hj hl
    cases j with
    | zero => omega
    | succ n => simp at hl
  exact ⟨h.1 hsh1, h.2 hsh2, by decide⟩

/-- C6: an entry missing any of the three required fields contributes nothing:
building the directory with it gives exactly the dictionaries built without it,
so no binding in either index originates from that entry. -/
theorem incomplete_entry_adds_nothing :
    ∀ (pre post : List CompanyEntry) (e : CompanyEntry),
      e.title = none ∨ e.cik_str = none ∨ e.ticker = none →
      cik_json_to_dict (pre ++ e :: post) = cik_json_to_dict (pre ++ post) := by
  intro pre post e h
  simp only [cik_json_to_dict, List.foldl_append, List.foldl_cons]
  rw [cikStep_skip _ _ h]

/-- Witness for C6: an entry with title and ticker but no cik_str, placed
between two complete entries, leaves the built dictionaries unchanged. -/
theorem incomplete_entry_adds_nothing_witness :
    cik_json_to_dict
        [⟨some "Acme", some 1, some "ACME"⟩,
          ⟨some "Beta", none, some "BETA"⟩,
          ⟨some "Gamma", some 2, some "GAM"⟩] =
      cik_json_to_dict
        [⟨some "Acme", some 1, some "ACME"⟩,
          ⟨some "Gamma", some 2, some "GAM"⟩] :=
  incomplete_entry_adds_nothing [⟨some "Acme", some 1, some "ACME"⟩]
    [⟨some "Gamma", some 2, some "GAM"⟩] ⟨some "Beta", none, some "BETA"⟩
    (Or.inr (Or.inl rfl))

/-- Folding entries none of which carries the queried title (resp. ticker)
leaves the lookup result on the corresponding dictionary unchanged. -/
theorem foldl_dict_lookup_skip :
    ∀ (items : List CompanyEntry)
      (acc : List (String × CompanyRecord) × List (String × CompanyRecord))
      (q : String),
      ((∀ e ∈ items, e.title ≠ some q) →
        dictGet (items.foldl cikStep acc).1 q = dictGet acc.1 q) ∧
      ((∀ e ∈ items, e.ticker ≠ some q) →
        dictGet (items.foldl cikStep acc).2 q = dictGet acc.2 q) := by
  intro items
  induction items with
  | nil => exact fun acc q => ⟨fun _ => rfl, fun _ => rfl⟩
  | cons x xs ih =>
    intro acc q
    constructor
    · intro hall
      have hx : x.title ≠ some q := hall x (List.mem_cons_self x xs)
      have hxs : ∀ e ∈ xs, e.title ≠ some q :=
        fun e he => hall e (List.mem_cons_of_mem x he)
      rw [List.foldl_cons, (ih (cikStep acc x) q).1 hxs]
      cases hcx : isComplete x with
      | false => rw [cikStep_skip _ _ ((isComplete_false_iff x).mp hcx)]
      | true =>
        obtain ⟨xn, xc, xt, hxe⟩ := (isComplete_true_iff x).mp hcx
        rw [hxe] at hx
        have hne : xn ≠ q := fun hcontra => hx (by simp [hcontra])
        rw [hxe]
        simp only [cikStep_complete]
        rw [dictGet_cons, if_neg hne]
    · intro hall
      have hx : x.ticker ≠ some q := hall x (List.mem_cons_self x xs)
      have hxs : ∀ e ∈ xs, e.ticker ≠ some q :=
        fun e he => hall e (List.mem_cons_of_mem x he)
      rw [List.foldl_cons, (ih (cikStep acc x) q).2 hxs]
      cases hcx : isComplete x with
      | false => rw [cikStep_skip _ _ ((isComplete_false_iff x).mp hcx)]
      | true =>
        obtain ⟨xn, xc, xt, hxe⟩ := (isComplete_true_iff x).mp hcx
        rw [hxe] at hx
        have hne : xt ≠ q := fun hcontra => hx (by simp [hcontra])
        rw [hxe]
        simp only [cikStep_complete]
        rw [dictGet_cons, if_neg hne]

/-- C7: lookups are exact-match with no fuzzy matching and no case-folding: a
string that is not verbatim the title of any feed entry resolves to none in the
name index, and a string that is not verbatim the ticker of any entry resolves
to none in the ticker index. -/
theorem lookups_exact_match :
    ∀ (fileurl : String) (headers : List (String × String))
      (items : List CompanyEntry) (q : String),
      ((∀ e ∈ items, e.title ≠ some q) →
        name_to_cik (secEdgarInit fileurl headers (some items)) q = none) ∧
      ((∀ e ∈ items, e.ticker ≠ some q) →
        ticker_to_cik (secEdgarInit fileurl headers (some items)) q = none) := by
  intro fileurl headers items q
  constructor
  · intro hall
    show dictGet (cik_json_to_dict items).1 q = none
    rw [show cik_json_to_dict items = items.foldl cikStep ([], []) from rfl,
      (foldl_dict_lookup_skip items ([], []) q).1 hall]
    rfl
  · intro hall
    show dictGet (cik_json_to_dict items).2 q = none
    rw [show cik_json_to_dict items = items.foldl cikStep ([], []) from rfl,
      (foldl_dict_lookup_skip items ([], []) q).2 hall]
    rfl

/-- Witness for C7: with one entry titled Acme and tickered ACME, the
lowercase query acme misses both indices (exact match, no case-folding). -/
theorem lookups_exact_match_witness :
    name_to_cik (secEdgarInit "url" []
        (some [⟨some "Acme", some 1, some "ACME"⟩])) "acme" = none ∧
      ticker_to_cik (secEdgarInit "url" []
        (some [⟨some "Acme", some 1, some "ACME"⟩])) "acme" = none := by
  have h := lookups_exact_match "url" [] [⟨some "Acme", some 1, some "ACME"⟩] "acme"
  exact ⟨h.1 (by decide), h.2 (by decide)⟩

/-- C10: the description default applies to any falsy description, not only a
missing one: a position whose primaryDocDescription entry is the empty string
yields the literal default text, and a non-empty description passes through
unchanged (the conditional below); on the worked payload, the 10-Q at position
1 carries the empty description and comes back with the default text. -/
theorem description_default_on_empty :
    (∀ (cik : String) (form_types : List String) (s : Submissions) (i : Nat),
        i < minLen5 s → form_types.contains (s.form.get! i) = true →
        ({ form_type := s.form.get! i
           accession_number := s.accessionNumber.get! i
           filing_date := s.filingDate.get! i
           document_url := "https://www.sec.gov/Archives/edgar/data/" ++ cik ++
             "/" ++ removeHyphens (s.accessionNumber.get! i) ++ "/" ++
             s.primaryDocument.get! i
           description := if s.primaryDocDescription.get! i = "" then
             "No description available" else s.primaryDocDescription.get! i } :
          FilingRecord) ∈ get_filings (some s) cik form_types) ∧
      get_filings (some examplePayload) "1234567" ["10-Q"] =
        [{ form_type := "10-Q", accession_number := "0001234567-22-000456",
           filing_date := "2022-05-01",
           document_url :=
             "https://www.sec.gov/Archives/edgar/data/1234567/000123456722000456/b10q.htm",
           description := "No description available" }] := by
  constructor
  · intro cik fts s i hi hf
    rw [get_filings_eq_filingsSpec]
    simp only [filingsSpec]
    refine List.mem_map.mpr ⟨i, ?_, rfl⟩
    exact List.mem_filter.mpr ⟨List.mem_range.mpr hi, hf⟩
  · decide

/-- Witness for C10: instantiating the general statement at position 1 of the
worked payload, whose description entry is empty. -/
theorem description_default_on_empty_witness :
    1 < minLen5 examplePayload ∧
      (["10-Q"].contains (examplePayload.form.get! 1)) = true ∧
      ({ form_type := "10-Q", accession_number := "0001234567-22-000456",
         filing_date := "2022-05-01",
         document_url :=
           "https://www.sec.gov/Archives/edgar/data/1234567/000123456722000456/b10q.htm",
         description := "No description available" } : FilingRecord) ∈
        get_filings (some examplePayload) "1234567" ["10-Q"] := by
  refine ⟨by decide, by decide, ?_⟩
  exact description_default_on_empty.1 "1234567" ["10-Q"] examplePayload 1
    (by decide) (by decide)

end SecEdgarModel
